import Mathlib

/-!
Verification of `mktoc/parser.py` (whipper-team/mktoc): a shallow embedding of
the CUE-sheet parsing state machine and its index-derivation logic.

Conventions of the embedding:
* Python strings are Lean `String`s; per-character work happens on `List Char`.
* The ten alternatives of the `CUE_CMDS` verbose regex are embedded as direct
  string matchers whose greedy/backtracking behaviour mirrors the Python `re`
  engine on each (anchored) alternative; the alternatives have pairwise
  distinct literal keywords so trying them in order is faithful.
* Mutable Python lists that are appended to (`self.tracks`,
  `self.track.indexes`) are kept most-recent-first (`cons` = `append`) inside
  the parsing state and reversed into declaration order when the final
  `ParseData` is assembled.  `self.track` is always the most recently created
  track, i.e. the head of the reversed track list.
* Fallible code is `Except Err`; a Python exception escaping the handler
  (`ParseError`, `AttributeError` on a deleted attribute, a bad time string)
  is an `Err` value.
* Machine integers are `Nat`; CUE times `MM:SS:FF` are modelled from the spec
  as total CD frame counts (75 frames per second), with truncated `Nat`
  subtraction for the spec's `cur.time - prev.time`.
* The directory consulted by `data_trk_size` is an explicit value
  `Fs := List (String × List String)`: file name together with its decoded
  text lines (encoding detection is consumed as a black box, per the spec).
-/

namespace Mktoc

/-- Decidable equality of fallible results, used to evaluate the embedding on
concrete inputs. -/
instance exceptDecEq {ε α : Type} [DecidableEq ε] [DecidableEq α] :
    DecidableEq (Except ε α) := fun x y =>
  match x, y with
  | .error a, .error b =>
    if h : a = b then isTrue (by rw [h]) else isFalse (by intro hh; cases hh; exact h rfl)
  | .error _, .ok _ => isFalse (by intro hh; cases hh)
  | .ok _, .error _ => isFalse (by intro hh; cases hh)
  | .ok a, .ok b =>
    if h : a = b then isTrue (by rw [h]) else isFalse (by intro hh; cases hh; exact h rfl)

/-! ### Python string primitives -/

/-- Python 2 `\s` for a plain `str` pattern: the six ASCII whitespace chars. -/
def pySpace (c : Char) : Bool :=
  c == ' ' || c == '\t' || c == '\n' || c == '\r' || c == '\x0b' || c == '\x0c'

/-- Python 2 `\w` for a plain `str` pattern: `[A-Za-z0-9_]`. -/
def isWordChar (c : Char) : Bool :=
  ('A' ≤ c && c ≤ 'Z') || ('a' ≤ c && c ≤ 'z') || c.isDigit || c == '_'

/-- Python `str.strip()`: drop leading and trailing ASCII whitespace. -/
def pyStrip (s : String) : String :=
  ⟨((s.data.dropWhile pySpace).reverse.dropWhile pySpace).reverse⟩

/-- Python `str.split()` (no argument): split on runs of whitespace. -/
def pySplitAux : List Char → List Char → List String
  | [], acc => if acc.isEmpty then [] else [⟨acc.reverse⟩]
  | c :: cs, acc =>
    if pySpace c then
      if acc.isEmpty then pySplitAux cs [] else ⟨acc.reverse⟩ :: pySplitAux cs []
    else pySplitAux cs (c :: acc)

def pySplit (s : String) : List String := pySplitAux s.data []

/-- Value of a string of decimal digits, Python `int`. -/
def natOfDigits (ds : List Char) : Nat :=
  ds.foldl (fun a c => a * 10 + (c.toNat - 48)) 0

/-- `$` of an anchored Python pattern: end of string, or just before a final
newline. -/
def atEnd (cs : List Char) : Bool := cs == [] || cs == ['\n']

/-- Greedy trailing `(.*)$`: the capture may not contain a newline and must
reach the end of the string (a single trailing newline allowed). -/
def dotStarEnd (cs : List Char) : Option (List Char) :=
  let body := cs.takeWhile (fun c => c != '\n')
  if atEnd (cs.drop body.length) then some body else none

/-- Consume a literal. -/
def stripLit (l : String) (cs : List Char) : Option (List Char) :=
  if l.data.isPrefixOf cs then some (cs.drop l.data.length) else none

/-- Greedy `\s+`: consume the maximal nonempty whitespace run. -/
def wsPlus (cs : List Char) : Option (List Char) :=
  let m := (cs.takeWhile pySpace).length
  if m == 0 then none else some (cs.drop m)

/-! ### The command matcher (`CUE_CMDS` regex of `_CueStateMachine`) -/

/-- One matched CUE command with its captured fields.  Digit captures are
already converted with `int` / the time conversion the data model performs. -/
inductive CueCmd where
  | catalog (v : String)
  | flags (v : String)
  | file (name : String)
  | index (num : Nat) (time : Nat)
  | isrc (v : String)
  | performer (v : String)
  | pregap (v : String)
  | title (v : String)
  | track (num : Nat) (ttype : String)
  | rem (field : String) (value : String)
  deriving DecidableEq, Repr

/-- Tail check for the FILE command after the closing quote:
`\s+WAVE$`. -/
def wavTailOk (post : List Char) : Bool :=
  match wsPlus post with
  | none => false
  | some r =>
    match stripLit "WAVE" r with
    | none => false
    | some r2 => atEnd r2

/-- Greedy `"(.*)"` followed by a tail: split at the rightmost quote whose
tail satisfies `tailOk`, the capture containing no newline. -/
def lastQuoteSplit (tailOk : List Char → Bool) (r : List Char) : Option (List Char) :=
  (List.range r.length).findSome? fun i =>
    let k := r.length - 1 - i
    if r.get? k == some '\x22' && !((r.take k).contains '\n') && tailOk (r.drop (k + 1)) then
      some (r.take k)
    else none

/-- `^CATALOG\s+(\d{13})$` -/
def matchCatalog (cs : List Char) : Option CueCmd := do
  let r ← stripLit "CATALOG" cs
  let r ← wsPlus r
  let ds := r.takeWhile Char.isDigit
  if ds.length == 13 && atEnd (r.drop 13) then pure (.catalog ⟨ds⟩) else none

/-- `^FLAGS\s+(.*)$` -/
def matchFlags (cs : List Char) : Option CueCmd := do
  let r ← stripLit "FLAGS" cs
  let r ← wsPlus r
  let v ← dotStarEnd r
  pure (.flags ⟨v⟩)

/-- `^FILE\s+"(.*)"\s+WAVE$` -/
def matchFile (cs : List Char) : Option CueCmd := do
  let r ← stripLit "FILE" cs
  let r ← wsPlus r
  let r ← stripLit "\x22" r
  let name ← lastQuoteSplit wavTailOk r
  pure (.file ⟨name⟩)

/-- `(\d{2}:\d{2}:\d{2})$`, converted to CD frames (75 per second). -/
def timePart (cs : List Char) : Option Nat :=
  match cs with
  | a :: b :: c :: d :: e :: f :: g :: h :: rest =>
    if a.isDigit && b.isDigit && c == ':' && d.isDigit && e.isDigit && f == ':' &&
        g.isDigit && h.isDigit && atEnd rest then
      some (natOfDigits [a, b] * 4500 + natOfDigits [d, e] * 75 + natOfDigits [g, h])
    else none
  | _ => none

/-- `^INDEX\s+(\d+)\s+(\d{2}:\d{2}:\d{2})$` -/
def matchIndex (cs : List Char) : Option CueCmd := do
  let r ← stripLit "INDEX" cs
  let r ← wsPlus r
  let ds := r.takeWhile Char.isDigit
  if ds.isEmpty then none else
  match wsPlus (r.drop ds.length) with
  | none => none
  | some r2 => (timePart r2).map fun t => .index (natOfDigits ds) t

/-- `^ISRC\s+(.*)$` -/
def matchIsrc (cs : List Char) : Option CueCmd := do
  let r ← stripLit "ISRC" cs
  let r ← wsPlus r
  let v ← dotStarEnd r
  pure (.isrc ⟨v⟩)

/-- `^PERFORMER\s+"(.*)"$` -/
def matchPerformer (cs : List Char) : Option CueCmd := do
  let r ← stripLit "PERFORMER" cs
  let r ← wsPlus r
  let r ← stripLit "\x22" r
  let v ← lastQuoteSplit atEnd r
  pure (.performer ⟨v⟩)

/-- `^PREGAP\s+(.*)$` -/
def matchPregap (cs : List Char) : Option CueCmd := do
  let r ← stripLit "PREGAP" cs
  let r ← wsPlus r
  let v ← dotStarEnd r
  pure (.pregap ⟨v⟩)

/-- `^TITLE\s+"(.*)"$` -/
def matchTitle (cs : List Char) : Option CueCmd := do
  let r ← stripLit "TITLE" cs
  let r ← wsPlus r
  let r ← stripLit "\x22" r
  let v ← lastQuoteSplit atEnd r
  pure (.title ⟨v⟩)

/-- `^TRACK\s+(\d+)\s+(AUDIO|MODE.*)$` -/
def matchTrack (cs : List Char) : Option CueCmd := do
  let r ← stripLit "TRACK" cs
  let r ← wsPlus r
  let ds := r.takeWhile Char.isDigit
  if ds.isEmpty then none else
  match wsPlus (r.drop ds.length) with
  | none => none
  | some r2 =>
    if r2 == "AUDIO".data || r2 == ("AUDIO".data ++ ['\n']) then
      pure (.track (natOfDigits ds) "AUDIO")
    else
      match stripLit "MODE" r2 with
      | none => none
      | some r3 => (dotStarEnd r3).map fun body => .track (natOfDigits ds) ⟨'M' :: 'O' :: 'D' :: 'E' :: body⟩

/-- `^REM\s*(\w*)\s*(.*)` (unanchored at the end). -/
def matchRem (cs : List Char) : Option CueCmd := do
  let r ← stripLit "REM" cs
  let r1 := r.dropWhile pySpace
  let w := r1.takeWhile isWordChar
  let r2 := (r1.drop w.length).dropWhile pySpace
  let v := r2.takeWhile (fun c => c != '\n')
  pure (.rem ⟨w⟩ ⟨v⟩)

/-- The whole `CUE_CMDS` alternation: first matching alternative, in pattern
order. -/
def matchCue (s : String) : Option CueCmd :=
  matchCatalog s.data <|> matchFlags s.data <|> matchFile s.data <|>
  matchIndex s.data <|> matchIsrc s.data <|> matchPerformer s.data <|>
  matchPregap s.data <|> matchTitle s.data <|> matchTrack s.data <|>
  matchRem s.data

/-! ### Data-track size resolver (`_CueStateMachine.data_trk_size`)

The directory is an explicit list of `(file name, decoded text lines)` pairs;
encoding detection is the consumed black-box capability of the spec, so a
file's content is already its list of text lines (newline-free). -/

/-- A model file system: file names with their decoded lines. -/
abbrev Fs := List (String × List String)

/-- Atoms of the (backtracking, greedy) row pattern
`^\s+%d\s+\|.+\|\s+(.+)\s+\|.+\|.+$`. -/
inductive Tok where
  | ws                 -- `\s+`
  | anyPlus            -- `.+`
  | grp                -- `(.+)`, the single capture group
  | lit (l : List Char)
  deriving DecidableEq, Repr

/-- Backtracking matcher for a token list, anchored at both ends, greedy
(longest first) on each quantifier exactly as the Python `re` engine.
Returns `some c` on a match, `c` being the capture of the `grp` token. -/
def matchToks : List Tok → List Char → Option (Option (List Char))
  | [], s => if atEnd s then some none else none
  | .lit l :: rest, s =>
    if l.isPrefixOf s then matchToks rest (s.drop l.length) else none
  | .ws :: rest, s =>
    let m := (s.takeWhile pySpace).length
    (List.range m).findSome? fun i => matchToks rest (s.drop (m - i))
  | .anyPlus :: rest, s =>
    let m := (s.takeWhile (fun c => c != '\n')).length
    (List.range m).findSome? fun i => matchToks rest (s.drop (m - i))
  | .grp :: rest, s =>
    let m := (s.takeWhile (fun c => c != '\n')).length
    (List.range m).findSome? fun i =>
      (matchToks rest (s.drop (m - i))).map fun _ => some (s.take (m - i))

/-- The row pattern for track number `n`:
`^\s+%d\s+\|.+\|\s+(.+)\s+\|.+\|.+$`. -/
def rowPattern (n : Nat) : List Tok :=
  [.ws, .lit (toString n).data, .ws, .lit ['|'], .anyPlus, .lit ['|'],
   .ws, .grp, .ws, .lit ['|'], .anyPlus, .lit ['|'], .anyPlus]

/-- Match one log line against the row pattern, returning the duration
capture. -/
def rowMatch (n : Nat) (line : String) : Option String :=
  match matchToks (rowPattern n) line.data with
  | some (some g) => some ⟨g⟩
  | _ => none

/-- `'1:11.11'.replace('.',':')`. -/
def dotColon (s : String) : String :=
  ⟨s.data.map fun c => if c = '.' then ':' else c⟩

/-- `os.path.splitext(f)[1]` for a plain file name (no directory
separators): extension from the last dot, unless every character before that
dot is itself a dot. -/
def splitextExt (name : String) : String :=
  let cs := name.data
  match (List.range cs.length).findSome? fun i =>
      let j := cs.length - 1 - i
      if cs.get? j == some '.' then some j else none with
  | some j => if (cs.take j).any (fun c => c != '.') then ⟨cs.drop j⟩ else ""
  | none => ""

/-- The `for f in logs: ... break` loop: first log (in the given order) with a
matching row wins; the duration of its first matching line, separator
normalized. -/
def scanLogs (n : Nat) : List (String × List String) → Option String
  | [] => none
  | (_, lines) :: rest =>
    match lines.findSome? (rowMatch n) with
    | some d => some (dotColon d)
    | none => scanLogs n rest

/-- The `.log` filter of `data_trk_size`. -/
def isLogFile (f : String × List String) : Bool := splitextExt f.1 == ".log"

/-- Strict lexicographic order on character lists by code point (Python's
bytewise string order, restricted to ASCII names). -/
def charsLt : List Char → List Char → Bool
  | _, [] => false
  | [], _ :: _ => true
  | a :: as, b :: bs => if a.toNat = b.toNat then charsLt as bs else decide (a.toNat < b.toNat)

/-- Total order used by `logs.sort()`. -/
def strLe (a b : String) : Bool := !charsLt b.data a.data

/-- `_CueStateMachine.data_trk_size`: scan `.log` files of the directory in
sorted (lexicographic) name order for a row whose leading numeric column is
the track number; return its duration field with `.` replaced by `:`.
`logs.sort()` is stable and ascending, hence equal to insertion sort by
name. -/
def data_trk_size (fs : Fs) (n : Nat) : Option String :=
  scanLogs n (List.insertionSort (fun a b => strLe a.1 b.1) (fs.filter isLogFile))

/-! ### Data model (`mktoc.disc`, modelled)

Modelled from the spec: the `disc` module is not part of the sources, so
`Disc`, `Track` and `TrackIndex` follow §3 of the spec: free-form named
fields, an index classification tag in {AUDIO, INDEX, START, PREAUDIO, DATA},
and `MM:SS:FF` times as CD frame counts.  `del idx.time` / `del idx.len_`
become `none`. -/

/-- Index classification tags (`TrackIndex.AUDIO` etc.). -/
inductive IndexCmd where
  | AUDIO | INDEX | START | PREAUDIO | DATA
  deriving DecidableEq, Repr

/-- Modelled from the spec: assoc-list update for the free-form named fields
of `Disc` / `Track` (`set_field`). -/
def setField (fs : List (String × String)) (k v : String) : List (String × String) :=
  if fs.any (fun p => p.1 == k) then fs.map (fun p => if p.1 == k then (k, v) else p)
  else fs ++ [(k, v)]

/-- Modelled from the spec: `disc.TrackIndex` — an index number, its carried
time and length (absent once deleted), its file, and a classification tag.
New audio indexes default to AUDIO carrying only their time. -/
structure TrackIndex where
  num : Nat
  time : Option Nat
  file_ : Option String
  len_ : Option Nat
  cmd : IndexCmd
  deriving DecidableEq, Repr

/-- Modelled from the spec: `disc.Track` — number, is-data flag, free-form
fields (flags included, stored as fields set to `"True"`), indexes.  During
parsing `indexes` is kept most-recent-first. -/
structure Track where
  num : Nat
  is_data : Bool
  fields : List (String × String)
  indexes : List TrackIndex
  deriving DecidableEq, Repr

/-- Modelled from the spec: `disc.Disc` — free-form named fields and the
multisession flag. -/
structure Disc where
  fields : List (String × String)
  is_multisession : Bool
  deriving DecidableEq, Repr

def Disc.init : Disc := { fields := [], is_multisession := false }

def Disc.set_field (d : Disc) (k v : String) : Disc :=
  { d with fields := setField d.fields k v }

/-- Modelled from the spec: TrackTime parse of a colon-separated
`MM:SS:FF` value (used for durations recovered from capture logs), as total
CD frames. -/
def splitColsAux : List Char → List Char → List (List Char)
  | [], acc => [acc.reverse]
  | c :: cs, acc =>
    if c = ':' then acc.reverse :: splitColsAux cs [] else splitColsAux cs (c :: acc)

def parseTime (s : String) : Option Nat :=
  match splitColsAux s.data [] with
  | [mm, ss, ff] =>
    if !mm.isEmpty && !ss.isEmpty && !ff.isEmpty &&
        mm.all Char.isDigit && ss.all Char.isDigit && ff.all Char.isDigit then
      some (natOfDigits mm * 4500 + natOfDigits ss * 75 + natOfDigits ff)
    else none
  | _ => none

/-! ### The parsing state machine (`_CueStateMachine`) -/

/-- The three handler tables: `disc_handlers`, `file_handlers`,
`track_handlers`. -/
inductive Ctx where
  | disc | file | track
  deriving DecidableEq, Repr

/-- Fatal parse outcomes: `EmptyCueData`, the `ParseError`s of
`_CueStateMachine.__call__` / `cmd_index` / `ParseData.__init__`, a Python
`AttributeError` on a missing (deleted) attribute, and a malformed recovered
time value. -/
inductive Err where
  | emptyCue | unrecognized | dataSize | badTime | noTracks | attrError
  deriving DecidableEq, Repr

/-- The mutable parsing session: disc record, track list (most recent first;
`self.track` is its head), file list (declaration order), current file, and
the active handler table. -/
structure CueState where
  disc : Disc
  revTracks : List Track
  files : List String
  file_ : Option String
  ctx : Ctx
  deriving DecidableEq, Repr

def initState : CueState :=
  { disc := Disc.init, revTracks := [], files := [], file_ := none, ctx := .disc }

/-- `cmd_rem`: store a REM field in the disc data. -/
def cmd_rem (st : CueState) (field value : String) : CueState :=
  { st with disc := st.disc.set_field field value }

/-- `cmd_field_disc`: store a command field in the disc data. -/
def cmd_field_disc (st : CueState) (name value : String) : CueState :=
  { st with disc := st.disc.set_field name value }

/-- `cmd_field_trk`: store a command field in the current track data. -/
def cmd_field_trk (st : CueState) (name value : String) : Except Err CueState :=
  match st.revTracks with
  | [] => .error .attrError
  | trk :: rest =>
    .ok { st with revTracks := { trk with fields := setField trk.fields name value } :: rest }

/-- `cmd_file`: register a new file (the injected resolver is modelled from
the spec in tolerant mode, i.e. the identity on the as-written name), change
state to FILE. -/
def cmd_file (st : CueState) (name : String) : CueState :=
  { st with file_ := some name, files := st.files ++ [name], ctx := .file }

/-- `cmd_track`: create a new track, mark the disc multisession if it is a
data track, change state to TRACK. -/
def cmd_track (st : CueState) (num : Nat) (ttype : String) : CueState :=
  { st with
    revTracks := { num := num, is_data := ttype ≠ "AUDIO", fields := [], indexes := [] } :: st.revTracks
    disc := if ttype ≠ "AUDIO" then { st.disc with is_multisession := true } else st.disc
    ctx := .track }

/-- `cmd_flags`: set recognized flag fields (`DCP`, `4CH` as `four_ch`,
`PRE`) on the current track. -/
def cmd_flags (st : CueState) (v : String) : Except Err CueState :=
  match st.revTracks with
  | [] => .error .attrError
  | trk :: rest =>
    let names := ((pySplit v).filter fun f => f == "DCP" || f == "4CH" || f == "PRE").map
      fun f => if f == "4CH" then "four_ch" else f
    .ok { st with
      revTracks := { trk with fields := names.foldl (fun a f => setField a f "True") trk.fields } :: rest }

/-- Creation step of `cmd_index`: a fresh AUDIO index carrying the declared
time, or — for a data track — a DATA index carrying the externally resolved
length (fatal when no capture log yields one). -/
def mkIndex (fs : Fs) (trk : Track) (file_ : Option String) (num t : Nat) :
    Except Err TrackIndex :=
  if trk.is_data = false then
    .ok { num := num, time := some t, file_ := file_, len_ := none, cmd := IndexCmd.AUDIO }
  else
    match data_trk_size fs trk.num with
    | none => .error .dataSize
    | some s =>
      match parseTime s with
      | none => .error .badTime
      | some v => .ok { num := num, time := some t, file_ := none, len_ := some v, cmd := .DATA }

/-- Rule R1 of `cmd_index`: a preceding index numbered 0 on a different file
than the new index becomes PREAUDIO. -/
def r1reclass (idx prev : TrackIndex) : TrackIndex :=
  if prev.num = 0 ∧ idx.file_ ≠ prev.file_ then { prev with cmd := IndexCmd.PREAUDIO } else prev

/-- Rule R2 of `cmd_index`: when the machine's current file equals the
preceding index's file, the new index becomes START (length = its time minus
the preceding time, time deleted) after a pregap, otherwise INDEX (length
deleted). -/
def r2reclass (file_ : Option String) (prev idx : TrackIndex) : Except Err TrackIndex :=
  if file_ = prev.file_ then
    if prev.num = 0 then
      match idx.time, prev.time with
      | some ct, some pt => .ok { idx with cmd := .START, len_ := some (ct - pt), time := none }
      | _, _ => .error .attrError
    else
      .ok { idx with cmd := .INDEX, len_ := none }
  else
    .ok idx

/-- One iteration of rule R3 of `cmd_index`: an AUDIO index on the machine's
current file gets its length set to the new index's time minus its own. -/
def closeIdx (file_ : Option String) (t : Nat) (i : TrackIndex) : Except Err TrackIndex :=
  if i.cmd = IndexCmd.AUDIO ∧ i.file_ = file_ then
    match i.time with
    | some it => .ok { i with len_ := some (t - it) }
    | none => .error .attrError
  else .ok i

/-- Rule R3 of `cmd_index`: close every AUDIO index of the previous track
that uses the machine's current file at the new index's time. -/
def closePrevTrack (file_ : Option String) (t : Nat) :
    List TrackIndex → Except Err (List TrackIndex)
  | [] => .ok []
  | i :: is =>
    match closeIdx file_ t i with
    | .error e => .error e
    | .ok i2 =>
      match closePrevTrack file_ t is with
      | .error e => .error e
      | .ok is2 => .ok (i2 :: is2)

/-- `cmd_index`: create and classify a new index, retroactively rewriting the
preceding index (R1), the new index itself (R2) or the previous track's
indexes (R3). -/
def cmd_index (fs : Fs) (st : CueState) (num t : Nat) : Except Err CueState :=
  match st.revTracks with
  | [] => .error .attrError
  | trk :: restTrks =>
    match mkIndex fs trk st.file_ num t with
    | .error e => .error e
    | .ok idx =>
      match trk.indexes with
      | prev :: others =>
        let prev1 := r1reclass idx prev
        match r2reclass st.file_ prev1 idx with
        | .error e => .error e
        | .ok idx2 =>
          .ok { st with revTracks := { trk with indexes := idx2 :: prev1 :: others } :: restTrks }
      | [] =>
        match restTrks with
        | [] => .ok { st with revTracks := { trk with indexes := [idx] } :: restTrks }
        | prevTrk :: more =>
          match idx.time with
          | none => .error .attrError
          | some t0 =>
            match closePrevTrack st.file_ t0 prevTrk.indexes with
            | .error e => .error e
            | .ok newIdxs =>
              .ok { st with revTracks :=
                { trk with indexes := [idx] } :: { prevTrk with indexes := newIdxs } :: more }

/-- One step of the state machine: match the line, dispatch through the
active context's handler table; a failed match or an unregistered command
kind is the fatal unrecognized-command error. -/
def step (fs : Fs) (st : CueState) (line : String) : Except Err CueState :=
  match matchCue line with
  | none => .error .unrecognized
  | some c =>
    match st.ctx with
    | .disc =>
      match c with
      | .catalog v => .ok (cmd_field_disc st "catalog" v)
      | .file f => .ok (cmd_file st f)
      | .performer v => .ok (cmd_field_disc st "performer" v)
      | .rem f v => .ok (cmd_rem st f v)
      | .title v => .ok (cmd_field_disc st "title" v)
      | _ => .error .unrecognized
    | .file =>
      match c with
      | .file f => .ok (cmd_file st f)
      | .index n t => cmd_index fs st n t
      | .track n ty => .ok (cmd_track st n ty)
      | _ => .error .unrecognized
    | .track =>
      match c with
      | .catalog _ => .error .unrecognized
      | .file f => .ok (cmd_file st f)
      | .flags v => cmd_flags st v
      | .index n t => cmd_index fs st n t
      | .isrc v => cmd_field_trk st "isrc" v
      | .performer v => cmd_field_trk st "performer" v
      | .pregap v => cmd_field_trk st "pregap" v
      | .rem _ _ => .ok st
      | .title v => cmd_field_trk st "title" v
      | .track n ty => .ok (cmd_track st n ty)

/-- Run the machine over the input lines in order. -/
def runLines (fs : Fs) : CueState → List String → Except Err CueState
  | st, [] => .ok st
  | st, l :: ls =>
    match step fs st l with
    | .error e => .error e
    | .ok st2 => runLines fs st2 ls

/-- `ParseData`: the immutable parsed result — disc record, tracks in
declaration order (indexes in declaration order), files in declaration
order. -/
structure ParseData where
  disc : Disc
  tracks : List Track
  files : List String
  deriving DecidableEq, Repr

/-- `CueParser.parse` followed by `_CueStateMachine.__call__`: strip every
line, fail on empty input, run the machine, and package the result
(`ParseData.__init__` fails when no tracks were parsed). -/
def parseCue (fs : Fs) (lines : List String) : Except Err ParseData :=
  let cue := lines.map pyStrip
  if cue.isEmpty then .error .emptyCue else
  match runLines fs initState cue with
  | .error e => .error e
  | .ok st =>
    if st.revTracks.isEmpty then .error .noTracks else
    .ok { disc := st.disc
          tracks := (st.revTracks.map fun t => { t with indexes := t.indexes.reverse }).reverse
          files := st.files }

/-! ### Specification-side definitions

These restate, in the spec's words, what the session is expected to
accumulate; the theorems below compare them with the embedded source. -/

/-- Which command kinds each context's handler table registers
(`disc_handlers`, `file_handlers`, `track_handlers`). -/
def ctxAccepts : Ctx → CueCmd → Bool
  | .disc, .catalog _ => true
  | .disc, .file _ => true
  | .disc, .performer _ => true
  | .disc, .rem _ _ => true
  | .disc, .title _ => true
  | .disc, _ => false
  | .file, .file _ => true
  | .file, .index _ _ => true
  | .file, .track _ _ => true
  | .file, _ => false
  | .track, .catalog _ => false
  | .track, _ => true

/-- Does the line match the TRACK command shape? -/
def isTrackCmd (l : String) : Bool :=
  match matchCue l with
  | some (.track _ _) => true
  | _ => false

/-- Index numbers of a track in declaration order. -/
def idxNums (t : Track) : List Nat := (t.indexes.map fun i => i.num).reverse

/-- The declaration-order skeleton of one track: its number and its indexes'
numbers. -/
def trkShape (t : Track) : Nat × List Nat := (t.num, idxNums t)

/-- The declaration-order skeleton of the session's track list. -/
def sessTracks (st : CueState) : List (Nat × List Nat) := (st.revTracks.map trkShape).reverse

/-- Append an index number to the skeleton of the most recent track. -/
def appendToLast : List (Nat × List Nat) → Nat → List (Nat × List Nat)
  | [], _ => []
  | [p], n => [(p.1, p.2 ++ [n])]
  | p :: q :: rest, n => p :: appendToLast (q :: rest) n

/-- Spec-side effect of one input line on the declared file list and track
skeleton: a FILE command appends its name, a TRACK command opens a new track,
an INDEX command appends its number to the latest track. -/
def declStep (acc : List String × List (Nat × List Nat)) (l : String) :
    List String × List (Nat × List Nat) :=
  match matchCue l with
  | some (.file f) => (acc.1 ++ [f], acc.2)
  | some (.track n _) => (acc.1, acc.2 ++ [(n, [])])
  | some (.index n _) => (acc.1, appendToLast acc.2 n)
  | _ => acc

/-- The declared file list and track skeleton of a whole input. -/
def declaredShape (lines : List String) : List String × List (Nat × List Nat) :=
  (lines.map pyStrip).foldl declStep ([], [])

/-- The file names captured by FILE commands, in declaration order. -/
def declFiles (lines : List String) : List String :=
  (lines.map pyStrip).filterMap fun l =>
    match matchCue l with
    | some (.file f) => some f
    | _ => none

/-- Spec-side description of rule R3's rewrite of the previous track's
indexes (total, defined when every affected index carries a time). -/
def closeAudio (file_ : Option String) (t : Nat) (is : List TrackIndex) : List TrackIndex :=
  is.map fun i =>
    if i.cmd = IndexCmd.AUDIO ∧ i.file_ = file_ then { i with len_ := some (t - i.time.getD 0) } else i

/-! ### Basic evaluations of the embedding -/

example : matchCue "TRACK 01 AUDIO" = some (.track 1 "AUDIO") := by decide
example : matchCue "TRACK 2 MODE1/2352" = some (.track 2 "MODE1/2352") := by decide
example : matchCue "INDEX 01 00:02:00" = some (.index 1 150) := by decide
example : matchCue "FILE \x22a b.wav\x22 WAVE" = some (.file "a b.wav") := by decide
example : matchCue "REM DATE 1999" = some (.rem "DATE" "1999") := by decide
example : matchCue "CATALOG 1234567890123" = some (.catalog "1234567890123") := by decide
example : matchCue "CATALOG 12345678901234" = none := by decide
example : matchCue "TITLE \x22T\x22" = some (.title "T") := by decide
example : matchCue "hello world" = none := by decide
example : matchCue "" = none := by decide
example : parseTime "1:00:00" = some 4500 := by decide

example :
    rowMatch 2 "     2  | 0:00.00 | 1:00.00 |       0    |    100" = some "1:00.00" := by
  decide
example :
    rowMatch 1 "     2  | 0:00.00 | 1:00.00 |       0    |    100" = none := by
  decide
example :
    data_trk_size [("b.log", ["  1  | x | 9:99.99 | y | z"]),
                   ("a.log", ["junk", "  1  | x | 1:02.03 | y | z"])] 1 =
      some "1:02:03" := by
  decide

example :
    parseCue [] ["FILE \x22a.wav\x22 WAVE", "TRACK 01 AUDIO",
                 "INDEX 01 00:00:00", "INDEX 02 00:02:00"] =
      .ok { disc := Disc.init
            tracks := [{ num := 1, is_data := false, fields := []
                         indexes := [{ num := 1, time := some 0, file_ := some "a.wav",
                                       len_ := none, cmd := IndexCmd.AUDIO },
                                     { num := 2, time := some 150, file_ := some "a.wav",
                                       len_ := none, cmd := .INDEX }] }]
            files := ["a.wav"] } := by decide

example :
    parseCue [] ["FILE \x22a.wav\x22 WAVE", "TRACK 01 AUDIO",
                 "INDEX 00 00:00:00", "INDEX 01 00:02:00"] =
      .ok { disc := Disc.init
            tracks := [{ num := 1, is_data := false, fields := []
                         indexes := [{ num := 0, time := some 0, file_ := some "a.wav",
                                       len_ := none, cmd := IndexCmd.AUDIO },
                                     { num := 1, time := none, file_ := some "a.wav",
                                       len_ := some 150, cmd := .START }] }]
            files := ["a.wav"] } := by decide

example :
    parseCue [] ["FILE \x22a.wav\x22 WAVE", "TRACK 01 AUDIO", "INDEX 00 00:00:00",
                 "FILE \x22b.wav\x22 WAVE", "INDEX 01 00:02:00"] =
      .ok { disc := Disc.init
            tracks := [{ num := 1, is_data := false, fields := []
                         indexes := [{ num := 0, time := some 0, file_ := some "a.wav",
                                       len_ := none, cmd := IndexCmd.PREAUDIO },
                                     { num := 1, time := some 150, file_ := some "b.wav",
                                       len_ := none, cmd := IndexCmd.AUDIO }] }]
            files := ["a.wav", "b.wav"] } := by decide

example :
    parseCue [("rip.log", ["     2  | 0:00.00 | 1:00.00 |       0    |    100"])]
        ["FILE \x22a.wav\x22 WAVE", "TRACK 01 AUDIO", "INDEX 01 00:00:00",
         "TRACK 02 MODE1/2352", "INDEX 01 00:03:30"] =
      .ok { disc := { fields := [], is_multisession := true }
            tracks := [{ num := 1, is_data := false, fields := []
                         indexes := [{ num := 1, time := some 0, file_ := some "a.wav",
                                       len_ := some 255, cmd := IndexCmd.AUDIO }] },
                       { num := 2, is_data := true, fields := []
                         indexes := [{ num := 1, time := some 255, file_ := none,
                                       len_ := some 4500, cmd := .DATA }] }]
            files := ["a.wav"] } := by decide

/-! ### Claim theorems -/

/-- C1: for every INDEX command creating an index `cur` in an audio track,
if the immediately preceding index in the same track shares `cur`'s file and
is numbered 0, then `cur` is reclassified START with length equal to `cur`'s
declared time minus the preceding index's time, and `cur`'s time value is no
longer carried after the length is computed. -/
theorem index_after_same_file_pregap_is_start
    (fs : Fs) (st : CueState) (num t : Nat) (trk : Track) (rest : List Track)
    (prev : TrackIndex) (others : List TrackIndex) (pt : Nat)
    (htrk : st.revTracks = trk :: rest) (haudio : trk.is_data = false)
    (hidx : trk.indexes = prev :: others)
    (hnum : prev.num = 0) (hfile : prev.file_ = st.file_) (htime : prev.time = some pt) :
    cmd_index fs st num t =
      .ok { st with revTracks :=
        { trk with indexes :=
          { num := num, time := none, file_ := st.file_, len_ := some (t - pt),
            cmd := .START } :: prev :: others } :: rest } := by
  obtain ⟨pnum, ptime, pfile, plen, pcmd⟩ := prev
  dsimp only at hnum hfile htime
  subst hnum hfile htime
  simp [cmd_index, htrk, haudio, hidx, mkIndex, r1reclass, r2reclass]

/-- C1 witness. -/
theorem index_after_same_file_pregap_is_start_witness :
    cmd_index []
        { disc := Disc.init
          revTracks := [{ num := 1, is_data := false, fields := []
                          indexes := [{ num := 0, time := some 0, file_ := some "a.wav",
                                        len_ := none, cmd := IndexCmd.AUDIO }] }]
          files := ["a.wav"], file_ := some "a.wav", ctx := .track } 1 150 =
      .ok { disc := Disc.init
            revTracks := [{ num := 1, is_data := false, fields := []
                            indexes := [{ num := 1, time := none, file_ := some "a.wav",
                                          len_ := some 150, cmd := .START },
                                        { num := 0, time := some 0, file_ := some "a.wav",
                                          len_ := none, cmd := IndexCmd.AUDIO }] }]
            files := ["a.wav"], file_ := some "a.wav", ctx := .track } :=
  index_after_same_file_pregap_is_start _ _ 1 150 _ []
    { num := 0, time := some 0, file_ := some "a.wav", len_ := none, cmd := IndexCmd.AUDIO }
    [] 0 rfl rfl rfl rfl rfl rfl

/-- C2 counterexample: after the same-file non-pregap reclassification
(rule R2b) the resulting INDEX-classified index still carries its declared
time; only the length is removed.  Concretely, indexes (1, fileA, 00:00:00)
then (2, fileA, 00:02:00) leave index 2 with time `some 150`. -/
theorem index_same_file_counterexample :
    (parseCue [] ["FILE \x22a.wav\x22 WAVE", "TRACK 01 AUDIO",
                  "INDEX 01 00:00:00", "INDEX 02 00:02:00"]).map
        (fun pd => pd.tracks.map fun trk => trk.indexes.map fun i => (i.cmd, i.len_, i.time)) =
      .ok [[(IndexCmd.AUDIO, none, some 0), (.INDEX, none, some 150)]] ∧
    (some 150 : Option Nat) ≠ none := ⟨by decide, by decide⟩

/-- C2 (amended): for every INDEX command creating an index `cur` in an
audio track, if the immediately preceding index in the same track shares
`cur`'s file and is not numbered 0, then `cur` is reclassified INDEX and its
length is removed; its declared time remains stored on the index. -/
theorem index_same_file_nonpregap_is_index
    (fs : Fs) (st : CueState) (num t : Nat) (trk : Track) (rest : List Track)
    (prev : TrackIndex) (others : List TrackIndex)
    (htrk : st.revTracks = trk :: rest) (haudio : trk.is_data = false)
    (hidx : trk.indexes = prev :: others)
    (hnum : prev.num ≠ 0) (hfile : prev.file_ = st.file_) :
    cmd_index fs st num t =
      .ok { st with revTracks :=
        { trk with indexes :=
          { num := num, time := some t, file_ := st.file_, len_ := none,
            cmd := .INDEX } :: prev :: others } :: rest } := by
  obtain ⟨pnum, ptime, pfile, plen, pcmd⟩ := prev
  dsimp only at hnum hfile
  subst hfile
  simp [cmd_index, htrk, haudio, hidx, mkIndex, r1reclass, r2reclass, hnum]

/-- C2 (amended) witness. -/
theorem index_same_file_nonpregap_is_index_witness :
    cmd_index []
        { disc := Disc.init
          revTracks := [{ num := 1, is_data := false, fields := []
                          indexes := [{ num := 1, time := some 0, file_ := some "a.wav",
                                        len_ := none, cmd := IndexCmd.AUDIO }] }]
          files := ["a.wav"], file_ := some "a.wav", ctx := .track } 2 150 =
      .ok { disc := Disc.init
            revTracks := [{ num := 1, is_data := false, fields := []
                            indexes := [{ num := 2, time := some 150, file_ := some "a.wav",
                                          len_ := none, cmd := .INDEX },
                                        { num := 1, time := some 0, file_ := some "a.wav",
                                          len_ := none, cmd := IndexCmd.AUDIO }] }]
            files := ["a.wav"], file_ := some "a.wav", ctx := .track } :=
  index_same_file_nonpregap_is_index _ _ 2 150 _ []
    { num := 1, time := some 0, file_ := some "a.wav", len_ := none, cmd := IndexCmd.AUDIO }
    [] rfl rfl rfl (by decide) rfl

/-- C3: for every INDEX command successfully creating an index `cur` (the
index produced by the creation step), if the immediately preceding index in
the same track is numbered 0 and belongs to a different file than `cur`,
that preceding index is reclassified PREAUDIO. -/
theorem preceding_pregap_other_file_becomes_preaudio
    (fs : Fs) (st : CueState) (num t : Nat) (trk : Track) (rest : List Track)
    (prev : TrackIndex) (others : List TrackIndex) (idx : TrackIndex) (st2 : CueState)
    (htrk : st.revTracks = trk :: rest)
    (hidx : trk.indexes = prev :: others)
    (hmk : mkIndex fs trk st.file_ num t = .ok idx)
    (hnum : prev.num = 0) (hfile : idx.file_ ≠ prev.file_)
    (hok : cmd_index fs st num t = .ok st2) :
    ∃ idx2, st2 = { st with revTracks :=
      { trk with indexes := idx2 :: { prev with cmd := IndexCmd.PREAUDIO } :: others } :: rest } := by
  simp only [cmd_index, htrk, hmk, hidx] at hok
  rw [r1reclass, if_pos ⟨hnum, hfile⟩] at hok
  rcases h2 : r2reclass st.file_ { prev with cmd := IndexCmd.PREAUDIO } idx with e | idx2
  · rw [h2] at hok; cases hok
  · rw [h2] at hok
    cases hok
    exact ⟨idx2, rfl⟩

/-- C3 witness. -/
theorem preceding_pregap_other_file_becomes_preaudio_witness :
    ∃ idx2,
      ({ disc := Disc.init
         revTracks := [{ num := 1, is_data := false, fields := []
                         indexes := [{ num := 1, time := some 150, file_ := some "b.wav",
                                       len_ := none, cmd := IndexCmd.AUDIO },
                                     { num := 0, time := some 0, file_ := some "a.wav",
                                       len_ := none, cmd := IndexCmd.PREAUDIO }] }]
         files := ["a.wav", "b.wav"], file_ := some "b.wav", ctx := .file } : CueState) =
      { disc := Disc.init
        revTracks := [{ num := 1, is_data := false, fields := []
                        indexes := idx2 :: [{ num := 0, time := some 0, file_ := some "a.wav",
                                              len_ := none, cmd := IndexCmd.PREAUDIO }] }]
        files := ["a.wav", "b.wav"], file_ := some "b.wav", ctx := .file } :=
  preceding_pregap_other_file_becomes_preaudio []
    { disc := Disc.init
      revTracks := [{ num := 1, is_data := false, fields := []
                      indexes := [{ num := 0, time := some 0, file_ := some "a.wav",
                                    len_ := none, cmd := IndexCmd.AUDIO }] }]
      files := ["a.wav", "b.wav"], file_ := some "b.wav", ctx := .file } 1 150
    _ [] { num := 0, time := some 0, file_ := some "a.wav", len_ := none, cmd := IndexCmd.AUDIO }
    [] { num := 1, time := some 150, file_ := some "b.wav", len_ := none, cmd := IndexCmd.AUDIO }
    _ rfl rfl rfl rfl (by decide) rfl

/-- C10: a REM command in Track context leaves the whole parsing session
unchanged, while in Disc context it sets the disc field named by the REM
sub-keyword. -/
theorem rem_track_noop_disc_sets_field
    (fs : Fs) (st : CueState) (line f v : String)
    (hm : matchCue line = some (.rem f v)) :
    (st.ctx = .track → step fs st line = .ok st) ∧
    (st.ctx = .disc → step fs st line = .ok { st with disc := st.disc.set_field f v }) := by
  constructor
  · intro hc; simp [step, hm, hc]
  · intro hc; simp [step, hm, hc, cmd_rem]

/-- C10 witness. -/
theorem rem_track_noop_disc_sets_field_witness :
    step [] { initState with ctx := .track } "REM DATE 1999" =
        .ok { initState with ctx := .track } ∧
    step [] initState "REM DATE 1999" =
        .ok { initState with disc := Disc.init.set_field "DATE" "1999" } :=
  ⟨(rem_track_noop_disc_sets_field [] { initState with ctx := .track } _ "DATE" "1999"
      (by decide)).1 rfl,
   (rem_track_noop_disc_sets_field [] initState _ "DATE" "1999" (by decide)).2 rfl⟩

/-! ### Session-shape lemmas: what each handler does to the declared
skeleton -/

/-- The creation step always stamps the declared number and time on the new
index. -/
theorem mkIndex_num (fs : Fs) (trk : Track) (f : Option String) (num t : Nat)
    (idx : TrackIndex) (h : mkIndex fs trk f num t = .ok idx) :
    idx.num = num ∧ idx.time = some t := by
  rw [mkIndex] at h
  split at h
  · cases h; exact ⟨rfl, rfl⟩
  · rcases hd : data_trk_size fs trk.num with _ | s
    · simp only [hd] at h; cases h
    · simp only [hd] at h
      rcases hp : parseTime s with _ | v
      · simp only [hp] at h; cases h
      · simp only [hp] at h; cases h; exact ⟨rfl, rfl⟩

/-- R1 never changes the index number. -/
theorem r1reclass_num (idx prev : TrackIndex) : (r1reclass idx prev).num = prev.num := by
  rw [r1reclass]; split <;> rfl

/-- R2 never changes the index number. -/
theorem r2reclass_num (f : Option String) (prev idx idx2 : TrackIndex)
    (h : r2reclass f prev idx = .ok idx2) : idx2.num = idx.num := by
  rw [r2reclass] at h
  split at h
  · split at h
    · rcases ht : idx.time with _ | ct <;> rcases hp : prev.time with _ | pt <;>
        simp only [ht, hp] at h <;> cases h <;> rfl
    · cases h; rfl
  · cases h; rfl

/-- One R3 iteration never changes the index number. -/
theorem closeIdx_num (f : Option String) (t : Nat) (i i2 : TrackIndex)
    (h : closeIdx f t i = .ok i2) : i2.num = i.num := by
  rw [closeIdx] at h
  split at h
  · rcases ht : i.time with _ | it <;> simp only [ht] at h <;> cases h <;> rfl
  · cases h; rfl

/-- R3 never changes the index numbers of the previous track. -/
theorem closePrevTrack_nums (f : Option String) (t : Nat) :
    ∀ is is2, closePrevTrack f t is = .ok is2 →
      is2.map (fun i => i.num) = is.map (fun i => i.num) := by
  intro is
  induction is with
  | nil => intro is2 h; cases h; rfl
  | cons i tl ih =>
    intro is2 h
    rw [closePrevTrack] at h
    rcases hi : closeIdx f t i with e | i2
    · simp only [hi] at h; cases h
    · simp only [hi] at h
      rcases hr : closePrevTrack f t tl with e | tl2
      · simp only [hr] at h; cases h
      · simp only [hr] at h
        cases h
        simp [ih tl2 hr, closeIdx_num f t i i2 hi]

/-- Appending an index number targets the last track of the skeleton. -/
theorem appendToLast_concat (n : Nat) :
    ∀ (xs : List (Nat × List Nat)) (p : Nat × List Nat),
      appendToLast (xs ++ [p]) n = xs ++ [(p.1, p.2 ++ [n])] := by
  intro xs
  induction xs with
  | nil => intro p; rfl
  | cons x tl ih =>
    intro p
    cases tl with
    | nil => rfl
    | cons y tl2 => exact congrArg (List.cons x) (ih p)

/-- The skeleton is empty exactly when no track exists. -/
theorem sessTracks_nil (st : CueState) : sessTracks st = [] ↔ st.revTracks = [] := by
  rw [sessTracks]
  constructor
  · intro h
    rcases hrt : st.revTracks with _ | ⟨a, b⟩
    · rfl
    · rw [hrt] at h; simp at h
  · intro h; rw [h]; rfl

/-- `cmd_index` appends exactly the declared index number to the latest
track's skeleton and leaves the file list alone. -/
theorem cmd_index_shape (fs : Fs) (st : CueState) (n t : Nat) (st2 : CueState)
    (h : cmd_index fs st n t = .ok st2) :
    st2.files = st.files ∧ st2.disc = st.disc ∧ st2.file_ = st.file_ ∧ st2.ctx = st.ctx ∧
    sessTracks st2 = appendToLast (sessTracks st) n := by
  rw [cmd_index] at h
  rcases hrt : st.revTracks with _ | ⟨trk, restTrks⟩
  · simp only [hrt] at h; cases h
  · simp only [hrt] at h
    rcases hmk : mkIndex fs trk st.file_ n t with e | idx
    · simp only [hmk] at h; cases h
    · simp only [hmk] at h
      obtain ⟨hnum, htime⟩ := mkIndex_num fs trk st.file_ n t idx hmk
      rcases hidx : trk.indexes with _ | ⟨prev, others⟩
      · simp only [hidx] at h
        rcases hrest : restTrks with _ | ⟨prevTrk, more⟩
        · simp only [hrest] at h
          cases h
          refine ⟨rfl, rfl, rfl, rfl, ?_⟩
          simp [sessTracks, hrt, hrest, trkShape, idxNums, hidx, hnum, appendToLast]
        · simp only [hrest, htime] at h
          rcases hc : closePrevTrack st.file_ t prevTrk.indexes with e | newIdxs
          · simp only [hc] at h; cases h
          · simp only [hc] at h
            cases h
            refine ⟨rfl, rfl, rfl, rfl, ?_⟩
            have hn := closePrevTrack_nums st.file_ t prevTrk.indexes newIdxs hc
            have : trkShape { prevTrk with indexes := newIdxs } = trkShape prevTrk := by
              simp [trkShape, idxNums, hn]
            simp only [sessTracks, hrt, hrest, List.map_cons, List.reverse_cons, this]
            rw [List.append_assoc, ← List.append_assoc]
            rw [appendToLast_concat n _ (trkShape trk)]
            simp [trkShape, idxNums, hidx, hnum]
      · simp only [hidx] at h
        rcases h2 : r2reclass st.file_ (r1reclass idx prev) idx with e | idx2
        · simp only [h2] at h; cases h
        · simp only [h2] at h
          cases h
          refine ⟨rfl, rfl, rfl, rfl, ?_⟩
          have hn2 : idx2.num = n := by rw [r2reclass_num _ _ _ _ h2, hnum]
          simp only [sessTracks, hrt, List.map_cons, List.reverse_cons]
          rw [appendToLast_concat n _ (trkShape trk)]
          simp [trkShape, idxNums, hidx, hn2, r1reclass_num]

/-- One accepted line transforms the declared file list and track skeleton
exactly as the spec-side `declStep` does. -/
theorem step_shape (fs : Fs) (st : CueState) (line : String) (st2 : CueState)
    (h : step fs st line = .ok st2) :
    (st2.files, sessTracks st2) = declStep (st.files, sessTracks st) line := by
  rcases hm : matchCue line with _ | c
  · rw [step, hm] at h; cases h
  · cases c with
    | index n t =>
      rcases hctx : st.ctx with _ | _ | _ <;> simp only [step, hm, hctx] at h
      · cases h
      · obtain ⟨hf, _, _, _, hs⟩ := cmd_index_shape fs st n t st2 h
        simp [declStep, hm, hf, hs]
      · obtain ⟨hf, _, _, _, hs⟩ := cmd_index_shape fs st n t st2 h
        simp [declStep, hm, hf, hs]
    | file f =>
      rcases hctx : st.ctx with _ | _ | _ <;> simp only [step, hm, hctx] at h <;>
        cases h <;> simp [declStep, hm, cmd_file, sessTracks]
    | track n ty =>
      rcases hctx : st.ctx with _ | _ | _ <;> simp only [step, hm, hctx] at h
      · cases h
      · cases h; simp [declStep, hm, cmd_track, sessTracks, trkShape, idxNums]
      · cases h; simp [declStep, hm, cmd_track, sessTracks, trkShape, idxNums]
    | catalog v =>
      rcases hctx : st.ctx with _ | _ | _ <;> simp only [step, hm, hctx] at h
      · cases h; simp [declStep, hm, cmd_field_disc, sessTracks]
      · cases h
      · cases h
    | rem f v =>
      rcases hctx : st.ctx with _ | _ | _ <;> simp only [step, hm, hctx] at h
      · cases h; simp [declStep, hm, cmd_rem, sessTracks]
      · cases h
      · cases h; simp [declStep, hm]
    | flags v =>
      rcases hctx : st.ctx with _ | _ | _ <;> simp only [step, hm, hctx] at h
      · cases h
      · cases h
      · rw [cmd_flags] at h
        rcases hrt : st.revTracks with _ | ⟨trk, rest⟩
        · rw [hrt] at h; cases h
        · rw [hrt] at h
          cases h
          simp [declStep, hm, sessTracks, hrt, trkShape, idxNums]
    | isrc v =>
      rcases hctx : st.ctx with _ | _ | _ <;> simp only [step, hm, hctx] at h
      · cases h
      · cases h
      · rw [cmd_field_trk] at h
        rcases hrt : st.revTracks with _ | ⟨trk, rest⟩
        · rw [hrt] at h; cases h
        · rw [hrt] at h
          cases h
          simp [declStep, hm, sessTracks, hrt, trkShape, idxNums]
    | performer v =>
      rcases hctx : st.ctx with _ | _ | _ <;> simp only [step, hm, hctx] at h
      · cases h; simp [declStep, hm, cmd_field_disc, sessTracks]
      · cases h
      · rw [cmd_field_trk] at h
        rcases hrt : st.revTracks with _ | ⟨trk, rest⟩
        · rw [hrt] at h; cases h
        · rw [hrt] at h
          cases h
          simp [declStep, hm, sessTracks, hrt, trkShape, idxNums]
    | pregap v =>
      rcases hctx : st.ctx with _ | _ | _ <;> simp only [step, hm, hctx] at h
      · cases h
      · cases h
      · rw [cmd_field_trk] at h
        rcases hrt : st.revTracks with _ | ⟨trk, rest⟩
        · rw [hrt] at h; cases h
        · rw [hrt] at h
          cases h
          simp [declStep, hm, sessTracks, hrt, trkShape, idxNums]
    | title v =>
      rcases hctx : st.ctx with _ | _ | _ <;> simp only [step, hm, hctx] at h
      · cases h; simp [declStep, hm, cmd_field_disc, sessTracks]
      · cases h
      · rw [cmd_field_trk] at h
        rcases hrt : st.revTracks with _ | ⟨trk, rest⟩
        · rw [hrt] at h; cases h
        · rw [hrt] at h
          cases h
          simp [declStep, hm, sessTracks, hrt, trkShape, idxNums]

/-- A whole successful run folds `declStep` over its lines. -/
theorem runLines_shape (fs : Fs) :
    ∀ (ls : List String) (st st2 : CueState), runLines fs st ls = .ok st2 →
      (st2.files, sessTracks st2) = ls.foldl declStep (st.files, sessTracks st) := by
  intro ls
  induction ls with
  | nil => intro st st2 h; cases h; rfl
  | cons a as ih =>
    intro st st2 h
    rw [runLines] at h
    rcases hs : step fs st a with e | stm
    · rw [hs] at h; cases h
    · rw [hs] at h
      rw [List.foldl_cons, ← step_shape fs st a stm hs]
      exact ih stm st2 h

/-- The file-list component of the spec-side fold accumulates exactly the
FILE captures. -/
theorem foldl_declStep_files :
    ∀ (ls : List String) (acc : List String × List (Nat × List Nat)),
      (ls.foldl declStep acc).1 =
        acc.1 ++ ls.filterMap fun l =>
          match matchCue l with
          | some (.file f) => some f
          | _ => none := by
  intro ls
  induction ls with
  | nil => intro acc; simp
  | cons a as ih =>
    intro acc
    rw [List.foldl_cons, List.filterMap_cons, ih]
    rcases hm : matchCue a with _ | c
    · simp [declStep, hm]
    · cases c <;> simp [declStep, hm]

/-- Appending an index number preserves the number of tracks. -/
theorem appendToLast_length (n : Nat) :
    ∀ xs : List (Nat × List Nat), (appendToLast xs n).length = xs.length := by
  intro xs
  induction xs with
  | nil => rfl
  | cons x tl ih =>
    cases tl with
    | nil => rfl
    | cons y tl2 => simpa [appendToLast] using ih

/-- The track-skeleton component of the spec-side fold grows by one per
TRACK command. -/
theorem foldl_declStep_length :
    ∀ (ls : List String) (acc : List String × List (Nat × List Nat)),
      (ls.foldl declStep acc).2.length = acc.2.length + ls.countP isTrackCmd := by
  intro ls
  induction ls with
  | nil => intro acc; simp
  | cons a as ih =>
    intro acc
    rw [List.foldl_cons, List.countP_cons, ih]
    rcases hm : matchCue a with _ | c
    · simp [declStep, hm, isTrackCmd]
    · cases c <;>
        simp [declStep, hm, isTrackCmd, appendToLast_length] <;> omega

/-! ### Run-level helper lemmas for the error claims -/

/-- A successful run processed every line through a matching command. -/
theorem runLines_ok_matched (fs : Fs) :
    ∀ (ls : List String) (st st2 : CueState),
      runLines fs st ls = .ok st2 → ∀ l ∈ ls, matchCue l ≠ none := by
  intro ls
  induction ls with
  | nil => intro st st2 _ l hl; cases hl
  | cons a as ih =>
    intro st st2 h l hl
    rw [runLines] at h
    rcases hs : step fs st a with e | stm
    · rw [hs] at h; cases h
    · rw [hs] at h
      rcases List.mem_cons.mp hl with rfl | hl2
      · intro hm; rw [step, hm] at hs; cases hs
      · exact ih stm st2 h l hl2

/-- A successful run over lines containing no TRACK command creates no
track. -/
theorem runLines_no_track_empty (fs : Fs) :
    ∀ (ls : List String) (st st2 : CueState),
      (∀ l ∈ ls, isTrackCmd l = false) → runLines fs st ls = .ok st2 →
      st.revTracks = [] → st2.revTracks = [] := by
  intro ls
  induction ls with
  | nil => intro st st2 _ h he; cases h; exact he
  | cons a as ih =>
    intro st st2 hT h he
    rw [runLines] at h
    rcases hs : step fs st a with e | stm
    · rw [hs] at h; cases h
    · rw [hs] at h
      refine ih stm st2 (fun l hl => hT l (List.mem_cons.mpr (Or.inr hl))) h ?_
      have hTa := hT a (List.mem_cons_self a as)
      have hsh := step_shape fs st a stm hs
      have h0 : sessTracks st = [] := (sessTracks_nil st).mpr he
      rw [← sessTracks_nil stm]
      have h2 : sessTracks stm = (declStep (st.files, sessTracks st) a).2 :=
        congrArg Prod.snd hsh
      rw [h0] at h2
      rcases hm : matchCue a with _ | c
      · simp only [declStep, hm] at h2; exact h2
      · cases c <;> simp_all [declStep, isTrackCmd, appendToLast]

/-- C7: a line matching none of the ten command shapes, or one whose matched
command kind is absent from the active context's handler table, fails the
parse fatally with the unrecognized-command error, and a successful parse
never contains such a line (no partial result). -/
theorem unknown_command_is_fatal (fs : Fs) (st : CueState) (line : String) :
    (matchCue line = none → step fs st line = .error .unrecognized) ∧
    (∀ c, matchCue line = some c → ctxAccepts st.ctx c = false →
      step fs st line = .error .unrecognized) ∧
    (∀ lines pd, parseCue fs lines = .ok pd → ∀ l ∈ lines, matchCue (pyStrip l) ≠ none) := by
  refine ⟨fun hm => by rw [step, hm], fun c hm hf => ?_, fun lines pd h l hl => ?_⟩
  · cases c <;> rcases hctx : st.ctx <;> simp_all [step, ctxAccepts]
  · rw [parseCue] at h
    rcases hemp : (lines.map pyStrip).isEmpty with _ | _
    · simp only [hemp, Bool.false_eq_true, if_false] at h
      rcases hr : runLines fs initState (lines.map pyStrip) with e | st3
      · simp only [hr] at h; cases h
      · exact runLines_ok_matched fs _ _ _ hr (pyStrip l) (List.mem_map_of_mem pyStrip hl)
    · simp only [hemp, if_true] at h; cases h

/-- C7 witness. -/
theorem unknown_command_is_fatal_witness :
    step [] initState "hello world" = .error .unrecognized ∧
    step [] initState "INDEX 01 00:00:00" = .error .unrecognized :=
  ⟨(unknown_command_is_fatal [] initState "hello world").1 (by decide),
   (unknown_command_is_fatal [] initState "INDEX 01 00:00:00").2.1 (.index 1 0)
     (by decide) (by decide)⟩

/-- C8: an input declaring zero TRACK commands never yields a Parsed Result
(assembly fails), and every constructed Parsed Result holds at least one
track. -/
theorem zero_tracks_is_fatal (fs : Fs) (lines : List String) :
    ((∀ l ∈ lines, isTrackCmd (pyStrip l) = false) →
      ∀ pd, parseCue fs lines ≠ .ok pd) ∧
    (∀ pd, parseCue fs lines = .ok pd → pd.tracks ≠ []) := by
  constructor
  · intro hT pd h
    rw [parseCue] at h
    rcases hemp : (lines.map pyStrip).isEmpty with _ | _
    · simp only [hemp, Bool.false_eq_true, if_false] at h
      rcases hr : runLines fs initState (lines.map pyStrip) with e | st3
      · simp only [hr] at h; cases h
      · simp only [hr] at h
        have h0 : st3.revTracks = [] := by
          refine runLines_no_track_empty fs _ _ _ ?_ hr rfl
          intro l hl
          rcases List.mem_map.mp hl with ⟨x, hx, rfl⟩
          exact hT x hx
        simp [h0] at h
    · simp only [hemp, if_true] at h; cases h
  · intro pd h hnil
    rw [parseCue] at h
    rcases hemp : (lines.map pyStrip).isEmpty with _ | _
    · simp only [hemp, Bool.false_eq_true, if_false] at h
      rcases hr : runLines fs initState (lines.map pyStrip) with e | st3
      · simp only [hr] at h; cases h
      · simp only [hr] at h
        rcases he : st3.revTracks.isEmpty with _ | _
        · simp only [he, Bool.false_eq_true, if_false, Except.ok.injEq] at h
          rcases hrt : st3.revTracks with _ | ⟨tk, ts⟩
          · rw [hrt] at he; cases he
          · rw [← h] at hnil
            simp [hrt] at hnil
        · simp only [he, if_true] at h; cases h
    · simp only [hemp, if_true] at h; cases h

/-- C8 witness. -/
theorem zero_tracks_is_fatal_witness :
    (parseCue [] ["FILE \x22a.wav\x22 WAVE"] ≠
      .ok { disc := Disc.init, tracks := [], files := ["a.wav"] }) ∧
    ({ disc := Disc.init
       tracks := [{ num := 1, is_data := false, fields := []
                    indexes := [{ num := 1, time := some 0, file_ := some "a.wav",
                                  len_ := none, cmd := IndexCmd.AUDIO }] }]
       files := ["a.wav"] } : ParseData).tracks ≠ [] :=
  ⟨(zero_tracks_is_fatal [] ["FILE \x22a.wav\x22 WAVE"]).1 (by decide) _,
   (zero_tracks_is_fatal [] ["FILE \x22a.wav\x22 WAVE", "TRACK 01 AUDIO", "INDEX 01 00:00:00"]).2
     _ (by decide)⟩

/-- A successful parse comes from a successful run whose final session had at
least one track, packaged verbatim. -/
theorem parseCue_ok_state (fs : Fs) (lines : List String) (pd : ParseData)
    (h : parseCue fs lines = .ok pd) :
    ∃ st3, runLines fs initState (lines.map pyStrip) = .ok st3 ∧
      st3.revTracks.isEmpty = false ∧
      pd = { disc := st3.disc
             tracks := (st3.revTracks.map fun t => { t with indexes := t.indexes.reverse }).reverse
             files := st3.files } := by
  rw [parseCue] at h
  rcases hemp : (lines.map pyStrip).isEmpty with _ | _
  · simp only [hemp, Bool.false_eq_true, if_false] at h
    rcases hr : runLines fs initState (lines.map pyStrip) with e | st3
    · simp only [hr] at h; cases h
    · simp only [hr] at h
      rcases he : st3.revTracks.isEmpty with _ | _
      · simp only [he, Bool.false_eq_true, if_false, Except.ok.injEq] at h
        exact ⟨st3, rfl, he, h.symm⟩
      · simp only [he, if_true] at h; cases h
  · simp only [hemp, if_true] at h; cases h

/-- Reversing the per-track index lists into declaration order turns the
session skeleton into the packaged tracks' skeleton. -/
theorem packed_shape (st : CueState) :
    ((st.revTracks.map fun t => { t with indexes := t.indexes.reverse } : List Track).reverse).map
      (fun t => (t.num, t.indexes.map fun i => i.num)) = sessTracks st := by
  simp [sessTracks, trkShape, idxNums, List.map_reverse, Function.comp_def]

/-- C5: a successful parse of input declaring N tracks yields exactly those N
tracks in TRACK-command order, each holding its indexes in INDEX-command
order — the packaged skeleton equals the spec-side declared skeleton. -/
theorem tracks_and_indexes_in_declaration_order (fs : Fs) (lines : List String)
    (pd : ParseData) (h : parseCue fs lines = .ok pd) :
    pd.tracks.map (fun t => (t.num, t.indexes.map fun i => i.num)) = (declaredShape lines).2 ∧
    pd.tracks.length = (lines.map pyStrip).countP isTrackCmd := by
  obtain ⟨st3, hr, _, rfl⟩ := parseCue_ok_state fs lines pd h
  have hsh := runLines_shape fs (lines.map pyStrip) initState st3 hr
  have hshape : sessTracks st3 = (declaredShape lines).2 := by
    have := congrArg Prod.snd hsh
    simpa [declaredShape, sessTracks, initState] using this
  have hmain := (packed_shape st3).trans hshape
  refine ⟨hmain, ?_⟩
  have h2 := congrArg List.length hmain
  simpa [declaredShape, foldl_declStep_length] using h2

/-- C5 witness. -/
theorem tracks_and_indexes_in_declaration_order_witness :
    ({ disc := Disc.init
       tracks := [{ num := 1, is_data := false, fields := []
                    indexes := [{ num := 1, time := some 0, file_ := some "a.wav",
                                  len_ := none, cmd := IndexCmd.AUDIO }] }]
       files := ["a.wav"] } : ParseData).tracks.map
        (fun t => (t.num, t.indexes.map fun i => i.num)) =
      (declaredShape ["FILE \x22a.wav\x22 WAVE", "TRACK 01 AUDIO", "INDEX 01 00:00:00"]).2 ∧
    ({ disc := Disc.init
       tracks := [{ num := 1, is_data := false, fields := []
                    indexes := [{ num := 1, time := some 0, file_ := some "a.wav",
                                  len_ := none, cmd := IndexCmd.AUDIO }] }]
       files := ["a.wav"] } : ParseData).tracks.length =
      (["FILE \x22a.wav\x22 WAVE", "TRACK 01 AUDIO", "INDEX 01 00:00:00"].map
        pyStrip).countP isTrackCmd :=
  tracks_and_indexes_in_declaration_order []
    ["FILE \x22a.wav\x22 WAVE", "TRACK 01 AUDIO", "INDEX 01 00:00:00"] _ (by decide)

/-- C9 counterexample: two FILE commands declaring the same name produce a
file list with that name twice — the packaged file list is not unique. -/
theorem file_list_duplicate_counterexample :
    (parseCue [] ["FILE \x22a.wav\x22 WAVE", "FILE \x22a.wav\x22 WAVE",
                  "TRACK 01 AUDIO", "INDEX 01 00:00:00"]).map (fun pd => pd.files) =
      .ok ["a.wav", "a.wav"] ∧
    ¬ (["a.wav", "a.wav"] : List String).Nodup := ⟨by decide, by decide⟩

/-- C9 (amended): the packaged file list holds one entry per FILE command, in
declaration order; a name declared by several FILE commands appears several
times (only the resolver's cache deduplicates, not the list). -/
theorem parse_files_are_file_declarations (fs : Fs) (lines : List String)
    (pd : ParseData) (h : parseCue fs lines = .ok pd) :
    pd.files = declFiles lines := by
  obtain ⟨st3, hr, _, rfl⟩ := parseCue_ok_state fs lines pd h
  have hsh := runLines_shape fs (lines.map pyStrip) initState st3 hr
  have := congrArg Prod.fst hsh
  simpa [declFiles, initState, foldl_declStep_files] using this

/-- C9 (amended) witness. -/
theorem parse_files_are_file_declarations_witness :
    ({ disc := Disc.init
       tracks := [{ num := 1, is_data := false, fields := []
                    indexes := [{ num := 1, time := some 0, file_ := some "a.wav",
                                  len_ := none, cmd := IndexCmd.AUDIO }] }]
       files := ["a.wav", "a.wav"] } : ParseData).files =
      declFiles ["FILE \x22a.wav\x22 WAVE", "FILE \x22a.wav\x22 WAVE",
                 "TRACK 01 AUDIO", "INDEX 01 00:00:00"] :=
  parse_files_are_file_declarations []
    ["FILE \x22a.wav\x22 WAVE", "FILE \x22a.wav\x22 WAVE",
     "TRACK 01 AUDIO", "INDEX 01 00:00:00"] _ (by decide)

/-! ### C4: cross-track span closure -/

/-- Under the time hypothesis, R3's loop succeeds and computes the spec-side
`closeAudio` rewrite. -/
theorem closePrevTrack_eq_closeAudio (f : Option String) (t : Nat) :
    ∀ is : List TrackIndex,
      (∀ i ∈ is, i.cmd = IndexCmd.AUDIO → i.file_ = f → i.time ≠ none) →
      closePrevTrack f t is = .ok (closeAudio f t is) := by
  intro is
  induction is with
  | nil => intro _; rfl
  | cons i tl ih =>
    intro hT
    have htl := ih fun j hj => hT j (List.mem_cons.mpr (Or.inr hj))
    by_cases hc : i.cmd = IndexCmd.AUDIO ∧ i.file_ = f
    · rcases ht : i.time with _ | it
      · exact absurd ht (hT i (List.mem_cons_self i tl) hc.1 hc.2)
      · rw [closePrevTrack]
        simp [closeIdx, hc, ht, htl, closeAudio]
    · rw [closePrevTrack]
      simp [closeIdx, hc, htl, closeAudio]

/-- C4 counterexample: the first index of a data track carries no file
(`none`), yet R3 still closes the previous track's AUDIO index on the
machine's current file — an index that does NOT share `cur`'s file is
modified.  Track 1's index gains length 255 although track 2's first index
has file `none` ≠ `some "a.wav"`. -/
theorem cross_track_closure_counterexample :
    (parseCue [("rip.log", ["     2  | 0:00.00 | 1:00.00 |       0    |    100"])]
        ["FILE \x22a.wav\x22 WAVE", "TRACK 01 AUDIO", "INDEX 01 00:00:00",
         "TRACK 02 MODE1/2352", "INDEX 01 00:03:30"]).map
      (fun pd => pd.tracks.map fun trk => trk.indexes.map fun i => (i.file_, i.cmd, i.len_)) =
      .ok [[(some "a.wav", IndexCmd.AUDIO, some 255)], [(none, .DATA, some 4500)]] ∧
    (some 255 : Option Nat) ≠ none ∧ (none : Option String) ≠ some "a.wav" :=
  ⟨by decide, by decide, by decide⟩

/-- C4 (amended): for the first index of a new track with a previous track
present, every AUDIO index of the previous track on the machine's *current
file* (the most recent FILE declaration — equal to `cur`'s file when `cur`
is an audio index, but not when `cur` belongs to a data track) gets its
length set to `cur`'s time minus its own time; all other indexes of the
previous track are unchanged. -/
theorem first_index_closes_prev_audio_on_current_file
    (fs : Fs) (st : CueState) (num t : Nat) (trk prevTrk : Track) (more : List Track)
    (idx : TrackIndex)
    (htrk : st.revTracks = trk :: prevTrk :: more)
    (hempty : trk.indexes = [])
    (hmk : mkIndex fs trk st.file_ num t = .ok idx)
    (htimes : ∀ i ∈ prevTrk.indexes, i.cmd = IndexCmd.AUDIO → i.file_ = st.file_ → i.time ≠ none) :
    cmd_index fs st num t = .ok { st with revTracks :=
      { trk with indexes := [idx] } ::
      { prevTrk with indexes := closeAudio st.file_ t prevTrk.indexes } :: more } := by
  obtain ⟨hnum, htime⟩ := mkIndex_num fs trk st.file_ num t idx hmk
  rw [cmd_index]
  simp only [htrk, hmk, hempty, htime,
    closePrevTrack_eq_closeAudio st.file_ t prevTrk.indexes htimes]

/-- C4 (amended) witness. -/
theorem first_index_closes_prev_audio_on_current_file_witness :
    cmd_index []
        { disc := Disc.init
          revTracks := [{ num := 2, is_data := false, fields := [], indexes := [] },
                        { num := 1, is_data := false, fields := []
                          indexes := [{ num := 1, time := some 0, file_ := some "a.wav",
                                        len_ := none, cmd := IndexCmd.AUDIO }] }]
          files := ["a.wav"], file_ := some "a.wav", ctx := .track } 1 255 =
      .ok { disc := Disc.init
            revTracks := [{ num := 2, is_data := false, fields := []
                            indexes := [{ num := 1, time := some 255, file_ := some "a.wav",
                                          len_ := none, cmd := IndexCmd.AUDIO }] },
                          { num := 1, is_data := false, fields := []
                            indexes := closeAudio (some "a.wav") 255
                              [{ num := 1, time := some 0, file_ := some "a.wav",
                                 len_ := none, cmd := IndexCmd.AUDIO }] }]
            files := ["a.wav"], file_ := some "a.wav", ctx := .track } :=
  first_index_closes_prev_audio_on_current_file [] _ 1 255
    { num := 2, is_data := false, fields := [], indexes := [] }
    { num := 1, is_data := false, fields := []
      indexes := [{ num := 1, time := some 0, file_ := some "a.wav",
                    len_ := none, cmd := IndexCmd.AUDIO }] }
    [] _ rfl rfl rfl (by decide)

/-! ### C6: data-track length resolution -/

/-- The log scan fails exactly when no scanned file has a matching row. -/
theorem scanLogs_eq_none (n : Nat) :
    ∀ ls : List (String × List String),
      scanLogs n ls = none ↔ ∀ f ∈ ls, f.2.findSome? (rowMatch n) = none := by
  intro ls
  induction ls with
  | nil => simp [scanLogs]
  | cons a tl ih =>
    obtain ⟨an, al⟩ := a
    rw [scanLogs]
    rcases hm : al.findSome? (rowMatch n) with _ | d
    · simp only [hm, ih]
      constructor
      · intro h f hf
        rcases List.mem_cons.mp hf with rfl | hf2
        · exact hm
        · exact h f hf2
      · intro h f hf; exact h f (List.mem_cons.mpr (Or.inr hf))
    · simp only [hm]
      constructor
      · intro h; cases h
      · intro h
        have := h (an, al) (List.mem_cons_self _ tl)
        rw [this] at hm; cases hm

/-- The log scan returns the first matching file's first match. -/
theorem scanLogs_first (n : Nat) (d : String) :
    ∀ (pre : List (String × List String)) (f : String × List String)
      (post : List (String × List String)),
      (∀ g ∈ pre, g.2.findSome? (rowMatch n) = none) →
      f.2.findSome? (rowMatch n) = some d →
      scanLogs n (pre ++ f :: post) = some (dotColon d) := by
  intro pre
  induction pre with
  | nil =>
    intro f post _ hf
    obtain ⟨fn, fl⟩ := f
    rw [List.nil_append, scanLogs]
    simp only at hf
    rw [hf]
  | cons g tl ih =>
    intro f post hpre hf
    obtain ⟨gn, gl⟩ := g
    rw [List.cons_append, scanLogs]
    have h0 : gl.findSome? (rowMatch n) = none := hpre (gn, gl) (List.mem_cons_self _ tl)
    rw [h0]
    exact ih f post (fun j hj => hpre j (List.mem_cons.mpr (Or.inr hj))) hf

/-- C6: in a data track the index length comes from scanning `.log` files in
lexicographic name order — the first matching row's duration, `.` replaced by
`:` — yielding a DATA-classified index carrying that length; when no log
matches, the parse fails fatally. -/
theorem data_track_length_from_logs
    (fs : Fs) (st : CueState) (num t : Nat) (trk : Track) (rest : List Track)
    (htrk : st.revTracks = trk :: rest) (hdata : trk.is_data = true) :
    (data_trk_size fs trk.num = none → cmd_index fs st num t = .error .dataSize) ∧
    (data_trk_size fs trk.num = none ↔
      ∀ f ∈ fs, isLogFile f = true → ∀ l ∈ f.2, rowMatch trk.num l = none) ∧
    (∀ s v, data_trk_size fs trk.num = some s → parseTime s = some v →
      trk.indexes = [] → rest = [] →
      cmd_index fs st num t = .ok { st with revTracks :=
        [{ trk with indexes := [{ num := num, time := some t, file_ := none,
                                  len_ := some v, cmd := .DATA }] }] }) ∧
    (∀ pre f post d,
      List.insertionSort (fun a b => strLe a.1 b.1) (fs.filter isLogFile) =
        pre ++ f :: post →
      (∀ g ∈ pre, g.2.findSome? (rowMatch trk.num) = none) →
      f.2.findSome? (rowMatch trk.num) = some d →
      data_trk_size fs trk.num = some (dotColon d)) := by
  refine ⟨fun hn => ?_, ?_, fun s v hs hv he hr => ?_, fun pre f post d hsort hpre hf => ?_⟩
  · rw [cmd_index]
    simp only [htrk, mkIndex, hdata, Bool.true_eq_false, if_false, hn]
  · rw [data_trk_size, scanLogs_eq_none]
    constructor
    · intro h f hf hlog l hl
      have := h f (List.mem_insertionSort _ |>.mpr (List.mem_filter.mpr ⟨hf, hlog⟩))
      exact (List.findSome?_eq_none).mp this l hl
    · intro h f hf
      have hf2 := (List.mem_insertionSort _).mp hf
      obtain ⟨hmem, hlog⟩ := List.mem_filter.mp hf2
      exact (List.findSome?_eq_none).mpr (h f hmem hlog)
  · rw [cmd_index]
    simp only [htrk, mkIndex, hdata, Bool.true_eq_false, if_false, hs, hv, he, hr]
  · rw [data_trk_size, hsort]
    exact scanLogs_first trk.num d pre f post hpre hf

/-- C6 witness. -/
theorem data_track_length_from_logs_witness :
    cmd_index []
        { disc := { fields := [], is_multisession := true }
          revTracks := [{ num := 1, is_data := true, fields := [], indexes := [] }]
          files := ["a.wav"], file_ := some "a.wav", ctx := .track } 1 0 =
      .error .dataSize ∧
    cmd_index [("rip.log", ["     1  | 0:00.00 | 1:00.00 |       0    |    100"])]
        { disc := { fields := [], is_multisession := true }
          revTracks := [{ num := 1, is_data := true, fields := [], indexes := [] }]
          files := ["a.wav"], file_ := some "a.wav", ctx := .track } 1 0 =
      .ok { disc := { fields := [], is_multisession := true }
            revTracks := [{ num := 1, is_data := true, fields := []
                            indexes := [{ num := 1, time := some 0, file_ := none,
                                          len_ := some 4500, cmd := .DATA }] }]
            files := ["a.wav"], file_ := some "a.wav", ctx := .track } :=
  ⟨(data_track_length_from_logs [] _ 1 0
      { num := 1, is_data := true, fields := [], indexes := [] } [] rfl rfl).1 (by decide),
   (data_track_length_from_logs
      [("rip.log", ["     1  | 0:00.00 | 1:00.00 |       0    |    100"])] _ 1 0
      { num := 1, is_data := true, fields := [], indexes := [] } [] rfl rfl).2.2.1
      "1:00:00" 4500 (by decide) (by decide) rfl rfl⟩

end Mktoc
